import Mathlib

/-!
Verification of the cache-backed fetcher and the aggregation logic of the
crypto-tracker application (`crypto_tracker_all_in_one.py`).

Modelling conventions:
* Python floats (prices, amounts, percentages, timestamps) are modelled as
  exact rationals `ℚ`.
* Python dicts used as key-value stores (`CACHE`, `CACHE_EXPIRY`, the
  `coin_prices` lookup) are modelled as association lists where assignment
  prepends, so lookup sees the most recent binding, matching dict overwrite.
* Python dicts that are iterated (`holdings`, `market_cap_percentage`) are
  modelled as lists of key-value pairs in iteration (= insertion) order.
* `list.sort(key=k)` / `sorted(xs, key=k)` are stable sorts; they are
  modelled by `List.insertionSort` with the total reflexive relation induced
  by the key, which is a stable sort with identical semantics
  (`reverse=True` corresponds to comparing keys in the opposite direction).
* Network requests are modelled by passing the would-be response
  (`Option payload`, with `none` for a request failure) as an explicit
  argument; the cache dictionaries are threaded as explicit state.
* `str.upper()` and `int(...)` are modelled by `pyUpper` / `pyInt?` over the
  character list of the string (the strings occurring in the program are
  ASCII coin symbols and day counts).
-/

/-- Lookup in a dict modelled as an association list (first binding wins;
assignment prepends, so this is the latest binding, as in a Python dict). -/
def dictLookup {β : Type _} (l : List (String × β)) (k : String) : Option β :=
  (l.find? (fun p => p.1 == k)).map (fun p => p.2)

/-- Dict assignment `d[k] = v`, modelled by prepending (shadows any old
binding for `k`). -/
def dictInsert {β : Type _} (l : List (String × β)) (k : String) (v : β) :
    List (String × β) :=
  (k, v) :: l

/-- Model of Python `str.upper()` for the ASCII strings used here. -/
def pyUpper (s : String) : String := String.mk (s.data.map Char.toUpper)

/-- Model of Python `int(s)` for the strings occurring in this program:
a non-empty all-digit string parses to its value, anything else (such as
`"max"`) raises `ValueError`, modelled by `none`.  Sign and whitespace
handling are irrelevant for the day-count strings used by the app. -/
def pyInt? (s : String) : Option Int :=
  if s.data ≠ [] ∧ s.data.all Char.isDigit then
    some (s.data.foldl (fun n c => n * 10 + ((c.toNat : Int) - 48)) 0)
  else none

/-- Outcome of running a Python function: a normal return value, or an
uncaught exception. -/
inductive PyResult (α : Type _) where
  | raised (msg : String)
  | returned (v : α)
deriving DecidableEq

/-- Relation sorting by a rational key in descending order; used to model the
stable Python sorts `sorted(xs, key=k, reverse=True)` via
`List.insertionSort`, which inserts an element after all earlier-listed
elements with ≥ keys, exactly Python's stable tie-breaking. -/
def keyDesc {α : Type _} (k : α → ℚ) : α → α → Prop := fun a b => k b ≤ k a

/-- Relation sorting by a rational key in ascending order, modelling the
stable Python sort `sorted(xs, key=k)`. -/
def keyAsc {α : Type _} (k : α → ℚ) : α → α → Prop := fun a b => k a ≤ k b

instance {α : Type _} (k : α → ℚ) : DecidableRel (keyDesc k) :=
  fun a b => inferInstanceAs (Decidable (k b ≤ k a))

instance {α : Type _} (k : α → ℚ) : IsTotal α (keyDesc k) :=
  ⟨fun a b => le_total (k b) (k a)⟩

instance {α : Type _} (k : α → ℚ) : IsTrans α (keyDesc k) :=
  ⟨fun _ _ _ h₁ h₂ => le_trans h₂ h₁⟩

instance {α : Type _} (k : α → ℚ) : DecidableRel (keyAsc k) :=
  fun a b => inferInstanceAs (Decidable (k a ≤ k b))

instance {α : Type _} (k : α → ℚ) : IsTotal α (keyAsc k) :=
  ⟨fun a b => le_total (k a) (k b)⟩

instance {α : Type _} (k : α → ℚ) : IsTrans α (keyAsc k) :=
  ⟨fun _ _ _ h₁ h₂ => le_trans h₁ h₂⟩

/-- The two module-level cache dicts `CACHE` and `CACHE_EXPIRY`
(source lines 27-28). -/
structure CacheState (α : Type _) where
  cache : List (String × α)
  expiry : List (String × ℚ)
deriving DecidableEq

/-- Source line 29: `CACHE_DURATION = 60` (seconds). -/
def CACHE_DURATION : ℚ := 60

/-- Model of `get_with_cache` (source lines 35-68).  `key` stands for the
cache key `f"{url}_{str(params)}"`, a deterministic serialization of the
(endpoint, params) pair.  `now` is `time.time()`, read once on entry.  `net`
is the outcome the network would produce for this request: `some data` for a
successful 2xx response with body `data`, and `none` for any
`requests.exceptions.RequestException` (connection error, a non-2xx status
raised by `raise_for_status`, or a malformed JSON body). -/
def get_with_cache {α : Type _} (st : CacheState α) (key : String) (now : ℚ)
    (cache_duration : ℚ) (net : Option α) : Option α × CacheState α :=
  if (dictLookup st.cache key).isSome ∧ now < (dictLookup st.expiry key).getD 0 then
    (dictLookup st.cache key, st)
  else
    match net with
    | some data =>
        (some data,
          { cache := dictInsert st.cache key data
            expiry := dictInsert st.expiry key (now + cache_duration) })
    | none => (none, st)

/-- One market record of the CoinGecko `/coins/markets` payload, restricted
to the fields this program consumes; `Option` models possibly-missing JSON
fields read with `.get(field, default)`. -/
structure MarketCoin where
  id : String
  symbol : Option String
  name : Option String
  current_price : Option ℚ
  price_change_percentage_24h : Option ℚ
  image : Option String
deriving DecidableEq

/-- The per-coin record stored in the `coin_prices` lookup dict
(source lines 195-201), with the `.get(..., default)` defaults applied. -/
structure CoinPriceData where
  current_price : ℚ
  price_change_24h_percentage : ℚ
  symbol : String
  name : String
  image : String
deriving DecidableEq

/-- Builds the value inserted into `coin_prices` for one coin
(source lines 195-201). -/
def coinPriceEntry (c : MarketCoin) : CoinPriceData :=
  { current_price := c.current_price.getD 0
    price_change_24h_percentage := c.price_change_percentage_24h.getD 0
    symbol := c.symbol.getD ""
    name := c.name.getD ""
    image := c.image.getD "" }

/-- The `coin_prices` lookup built by the loop at source lines 193-201: each
coin overwrites any earlier binding of the same id, so the latest occurrence
wins, as in a Python dict. -/
def coin_prices (all_coins : List MarketCoin) (coin_id : String) : Option CoinPriceData :=
  all_coins.foldl (fun acc c => if c.id == coin_id then some (coinPriceEntry c) else acc) none

/-- One entry of the `portfolio_items` list (source lines 213-222). -/
structure PortfolioItem where
  id : String
  symbol : String
  name : String
  amount : ℚ
  price : ℚ
  value : ℚ
  price_change_24h : ℚ
  image : String
deriving DecidableEq

/-- The dict appended to `portfolio_items` for one holding
(source lines 213-222). -/
def mkPortfolioItem (coin_id : String) (amount : ℚ) (d : CoinPriceData) : PortfolioItem :=
  { id := coin_id
    symbol := pyUpper d.symbol
    name := d.name
    amount := amount
    price := d.current_price
    value := amount * d.current_price
    price_change_24h := d.price_change_24h_percentage
    image := d.image }

/-- The `portfolio_items` list built by the loop at source lines 207-222:
holdings are visited in iteration order and the ones whose `coin_id` is
present in `coin_prices` are appended. -/
def portfolio_items (holdings : List (String × ℚ)) (all_coins : List MarketCoin) :
    List PortfolioItem :=
  holdings.filterMap (fun p => (coin_prices all_coins p.1).map (mkPortfolioItem p.1 p.2))

/-- The running total `total_value` accumulated by the same loop
(source lines 205, 211). -/
def portfolio_total (items : List PortfolioItem) : ℚ :=
  items.foldl (fun s it => s + it.value) 0

/-- The dict returned by `calculate_portfolio_value`: `total_value`,
`holdings`, and the optional `"error"` key (source lines 183, 190,
227-230). -/
structure PortfolioResult where
  total_value : ℚ
  holdings : List PortfolioItem
  error : Option String
deriving DecidableEq

/-- The aggregation core of `calculate_portfolio_value` once a truthy coin
list has been fetched (source lines 192-230): build the `coin_prices`
lookup, accumulate `portfolio_items` and `total_value`, then
`portfolio_items.sort(key=lambda x: x['value'], reverse=True)`. -/
def portfolio_from_coins (holdings : List (String × ℚ)) (all_coins : List MarketCoin) :
    PortfolioResult :=
  let items := portfolio_items holdings all_coins
  { total_value := portfolio_total items
    holdings := List.insertionSort (keyDesc PortfolioItem.value) items
    error := none }

/-- The cache key used by `get_top_coins limit` (source lines 80-90 with
line 47): a deterministic serialization of the `/coins/markets` endpoint and
its params, which vary only in `per_page = limit`. -/
def top_coins_cache_key (limit : Nat) : String :=
  "coins/markets-vs_currency-usd-order-market_cap_desc-per_page-" ++ toString limit

/-- Model of `get_top_coins` (source lines 70-90): a thin call through
`get_with_cache` with the default TTL. -/
def get_top_coins (limit : Nat) (st : CacheState (List MarketCoin)) (now : ℚ)
    (net : Option (List MarketCoin)) :
    Option (List MarketCoin) × CacheState (List MarketCoin) :=
  get_with_cache st (top_coins_cache_key limit) now CACHE_DURATION net

/-- The result `calculate_portfolio_value` computes from the outcome of its
`get_top_coins(250)` fetch (source lines 187-230): the Python truthiness
test `if not all_coins` (line 189) covers both a failed fetch (`None`) and
an empty payload list and returns the error-marked empty result; otherwise
the aggregation core runs. -/
def portfolio_result_of_fetch (holdings : List (String × ℚ))
    (fetched : Option (List MarketCoin)) : PortfolioResult :=
  match fetched with
  | none => { total_value := 0, holdings := [], error := some "Failed to fetch coin data" }
  | some all_coins =>
      if all_coins = [] then
        { total_value := 0, holdings := [], error := some "Failed to fetch coin data" }
      else portfolio_from_coins holdings all_coins

/-- Model of `calculate_portfolio_value` (source lines 172-230).  The Python
truthiness test `if not holdings` (line 182) is the emptiness test; the
fetch threads the cache state, and the returned dict depends only on the
fetched payload. -/
def calculate_portfolio_value (holdings : List (String × ℚ))
    (st : CacheState (List MarketCoin)) (now : ℚ) (net : Option (List MarketCoin)) :
    PortfolioResult × CacheState (List MarketCoin) :=
  if holdings = [] then
    ({ total_value := 0, holdings := [], error := none }, st)
  else
    let res := get_top_coins 250 st now net
    (portfolio_result_of_fetch holdings res.1, res.2)

/-- The `sorted_data` list of `create_market_dominance_chart`
(source lines 369-373): upper-case the symbols and stably sort by
percentage, descending. -/
def dominance_sorted_data (market_cap_percentage : List (String × ℚ)) : List (String × ℚ) :=
  List.insertionSort (keyDesc (Prod.snd : String × ℚ → ℚ))
    (market_cap_percentage.map (fun p => (pyUpper p.1, p.2)))

/-- The `chart_data` bucket list of `create_market_dominance_chart`
(source lines 368-382): keep the top 8 entries of `sorted_data` and append
an `"Others"` bucket holding the sum of the rest whenever more than 8
entries exist.  The figure construction around it is presentation only. -/
def create_market_dominance_chart (market_cap_percentage : List (String × ℚ)) :
    List (String × ℚ) :=
  let sorted_data := dominance_sorted_data market_cap_percentage
  if 8 < sorted_data.length then
    sorted_data.take 8 ++ [("Others", ((sorted_data.drop 8).map Prod.snd).sum)]
  else sorted_data

/-- The 24h percentage change read with `coin.get('price_change_percentage_24h', 0)`. -/
def pc24 (c : MarketCoin) : ℚ := c.price_change_percentage_24h.getD 0

/-- The `top_gainers` list of `home_dashboard` (source lines 663-667):
coins with positive 24h change, stably sorted descending, first five. -/
def top_gainers (coins : List MarketCoin) : List MarketCoin :=
  (List.insertionSort (keyDesc pc24) (coins.filter (fun c => decide (0 < pc24 c)))).take 5

/-- The `top_losers` list of `home_dashboard` (source lines 669-672):
coins with negative 24h change, stably sorted ascending, first five. -/
def top_losers (coins : List MarketCoin) : List MarketCoin :=
  (List.insertionSort (keyAsc pc24) (coins.filter (fun c => decide (pc24 c < 0)))).take 5

/-- The market-chart payload consumed by `get_coin_history`:
`data.get('prices', [])` is a list of `[timestamp, price]` pairs. -/
structure HistPayload where
  prices : List (ℚ × ℚ)
deriving DecidableEq

/-- Model of `get_coin_history` (source lines 128-159).  The request params
computed at lines 140-144 evaluate `int(days)` outside any handler, so a
non-numeric `days` raises an uncaught `ValueError`.  Otherwise the chosen
interval is `"daily"` when `int(days) > 7` and `"hourly"` otherwise, and
`net` gives the outcome of `get_with_cache` for the resulting request
(`none` for a failed fetch or falsy payload, which the function turns into
the explicit absent result `returned none`). -/
def get_coin_history (days : String) (net : String → Option HistPayload) :
    PyResult (Option (List (ℚ × ℚ))) :=
  match pyInt? days with
  | none => PyResult.raised ("ValueError: invalid literal for int with base 10: " ++ days)
  | some n =>
      let interval := if 7 < n then "daily" else "hourly"
      match net interval with
      | none => PyResult.returned none
      | some data => PyResult.returned (some data.prices)

/-- The day-count window values offered by the dashboard interface: the keys
of `timeframe_options` (source line 594) after `.replace('d', '')`
(source line 607). -/
def dashboard_timeframe_days : List String :=
  ["1", "7", "30", "90", "365", "max"]

/-- Concrete market record used to evaluate the theorems below: coin
`"a"` priced at 10 with a +1% 24h change. -/
def witSnapCoin : MarketCoin :=
  { id := "a"
    symbol := some "a"
    name := some "CoinA"
    current_price := some 10
    price_change_percentage_24h := some 1
    image := some "" }

/-- Concrete market record with a given id and 24h change, used to evaluate
the movers theorems on the worked example of the specification. -/
def moverCoin (i : String) (q : ℚ) : MarketCoin :=
  { id := i
    symbol := some i
    name := some i
    current_price := some 1
    price_change_percentage_24h := some q
    image := some "" }

/-- The five-coin snapshot with 24h changes [+5, -3, 0, +10, -1] from the
specification's worked movers example. -/
def moversExample : List MarketCoin :=
  [moverCoin "a" 5, moverCoin "b" (-3), moverCoin "c" 0, moverCoin "d" 10,
    moverCoin "e" (-1)]

/-- The ten-symbol dominance mapping with percentages
[30, 20, 15, 10, 8, 6, 4, 3, 2, 2] from the specification's worked
example. -/
def dominanceExample : List (String × ℚ) :=
  [("s1", 30), ("s2", 20), ("s3", 15), ("s4", 10), ("s5", 8), ("s6", 6),
    ("s7", 4), ("s8", 3), ("s9", 2), ("s10", 2)]

/-- A three-symbol dominance mapping used to evaluate the small-input
bucketing theorem. -/
def dominanceSmallExample : List (String × ℚ) :=
  [("btc", 50), ("eth", 20), ("xrp", 25)]

/-! ### Supporting lemmas -/

theorem dictLookup_dictInsert {β : Type _} (l : List (String × β)) (k : String) (v : β) :
    dictLookup (dictInsert l k v) k = some v := by
  simp [dictLookup, dictInsert]

/-- Re-running a fetch against the state left by a first fetch, with the
same clock reading, a positive TTL and the same would-be network outcome,
yields the same payload as the first fetch. -/
theorem get_with_cache_rerun {α : Type _} (st : CacheState α) (key : String)
    (now d : ℚ) (net : Option α) (hd : 0 < d) :
    (get_with_cache (get_with_cache st key now d net).2 key now d net).1
      = (get_with_cache st key now d net).1 := by
  by_cases hit : (dictLookup st.cache key).isSome ∧
      now < (dictLookup st.expiry key).getD 0
  · have heq : get_with_cache st key now d net = (dictLookup st.cache key, st) := by
      unfold get_with_cache
      rw [if_pos hit]
    rw [heq]
    show (get_with_cache st key now d net).1 = dictLookup st.cache key
    rw [heq]
  · cases net with
    | none =>
        have heq : get_with_cache st key now d none = (none, st) := by
          unfold get_with_cache
          rw [if_neg hit]
        rw [heq]
        show (get_with_cache st key now d none).1 = none
        rw [heq]
    | some data =>
        have heq : get_with_cache st key now d (some data)
            = (some data,
                { cache := dictInsert st.cache key data
                  expiry := dictInsert st.expiry key (now + d) }) := by
          unfold get_with_cache
          rw [if_neg hit]
        rw [heq]
        have hit2 : (dictLookup (dictInsert st.cache key data) key).isSome ∧
            now < (dictLookup (dictInsert st.expiry key (now + d)) key).getD 0 := by
          refine ⟨by rw [dictLookup_dictInsert]; rfl, ?_⟩
          rw [dictLookup_dictInsert]
          simpa using lt_add_of_pos_right now hd
        show (get_with_cache
            (CacheState.mk (dictInsert st.cache key data)
              (dictInsert st.expiry key (now + d))) key now d (some data)).1 = some data
        unfold get_with_cache
        rw [if_pos hit2]
        simp [dictLookup_dictInsert]

theorem filter_orderedInsert_keyDesc {α : Type _} (k : α → ℚ) (v : ℚ) (a : α)
    (l : List α) :
    (List.orderedInsert (keyDesc k) a l).filter (fun x => decide (k x = v))
      = if k a = v then a :: l.filter (fun x => decide (k x = v))
        else l.filter (fun x => decide (k x = v)) := by
  induction l with
  | nil =>
      by_cases h : k a = v <;> simp [List.orderedInsert, List.filter, h]
  | cons b t ih =>
      by_cases hr : keyDesc k a b
      · rw [List.orderedInsert_of_le (keyDesc k) t hr]
        by_cases h : k a = v <;> simp [List.filter_cons, h]
      · have hr' : ¬ k b ≤ k a := hr
        simp only [List.orderedInsert, if_neg hr]
        by_cases hb : k b = v
        · have ha : ¬ k a = v := by
            intro hav
            exact hr' (le_of_eq (hb.trans hav.symm))
          simp [List.filter_cons, hb, ha, ih]
        · simp [List.filter_cons, hb, ih]

/-- Stability of the modelled Python sort: the subsequence of entries having
any fixed key value is untouched by the sort. -/
theorem filter_insertionSort_keyDesc {α : Type _} (k : α → ℚ) (v : ℚ) (l : List α) :
    (List.insertionSort (keyDesc k) l).filter (fun x => decide (k x = v))
      = l.filter (fun x => decide (k x = v)) := by
  induction l with
  | nil => rfl
  | cons a t ih =>
      simp only [List.insertionSort]
      rw [filter_orderedInsert_keyDesc]
      by_cases h : k a = v <;> simp [List.filter_cons, h, ih]

theorem pairwise_take_drop {α : Type _} {r : α → α → Prop} {l : List α}
    (h : l.Pairwise r) (n : ℕ) :
    ∀ x ∈ l.take n, ∀ y ∈ l.drop n, r x y := by
  have h' : (l.take n ++ l.drop n).Pairwise r := by
    rw [List.take_append_drop]; exact h
  exact (List.pairwise_append.mp h').2.2

theorem foldl_add_map_sum {α : Type _} (f : α → ℚ) :
    ∀ (l : List α) (a : ℚ), l.foldl (fun s x => s + f x) a = a + (l.map f).sum
  | [], a => by simp
  | x :: t, a => by
      rw [List.foldl_cons, foldl_add_map_sum f t (a + f x), List.map_cons, List.sum_cons]
      ring

theorem portfolio_items_map_value (holdings : List (String × ℚ))
    (all_coins : List MarketCoin) :
    (portfolio_items holdings all_coins).map PortfolioItem.value
      = holdings.filterMap
          (fun p => (coin_prices all_coins p.1).map (fun d => p.2 * d.current_price)) := by
  induction holdings with
  | nil => rfl
  | cons p t ih =>
      simp only [portfolio_items, List.filterMap_cons] at ih ⊢
      cases h : coin_prices all_coins p.1 with
      | none => simpa [h] using ih
      | some d => simpa [h, mkPortfolioItem] using ih

theorem portfolio_items_map_id (holdings : List (String × ℚ))
    (all_coins : List MarketCoin) :
    (portfolio_items holdings all_coins).map PortfolioItem.id
      = (holdings.filter (fun p => (coin_prices all_coins p.1).isSome)).map Prod.fst := by
  induction holdings with
  | nil => rfl
  | cons p t ih =>
      simp only [portfolio_items, List.filterMap_cons, List.filter_cons] at ih ⊢
      cases h : coin_prices all_coins p.1 with
      | none => simpa [h] using ih
      | some d => simpa [h, mkPortfolioItem] using ih

theorem portfolio_items_length (holdings : List (String × ℚ))
    (all_coins : List MarketCoin) :
    (portfolio_items holdings all_coins).length
      = (holdings.filter (fun p => (coin_prices all_coins p.1).isSome)).length := by
  have h := congrArg List.length (portfolio_items_map_id holdings all_coins)
  simpa using h

/-! ### Claim theorems -/

/-- C2: for every (endpoint, params) pair — i.e. every cache key — a fetch
while a non-expired cache entry exists returns the exact prior payload with
no dependence on the network outcome and no change to the cache state; once
the entry's TTL has expired (or no entry exists), the fetch uses the network
and on success stores the payload with expiry `now + ttl`. -/
theorem c2_cache_hit_and_ttl_expiry {α : Type _} (st : CacheState α) (key : String)
    (now ttl : ℚ) :
    (((dictLookup st.cache key).isSome ∧ now < (dictLookup st.expiry key).getD 0) →
      ∀ net : Option α,
        get_with_cache st key now ttl net = (dictLookup st.cache key, st)) ∧
    ((¬ ((dictLookup st.cache key).isSome ∧ now < (dictLookup st.expiry key).getD 0)) →
      ∀ data : α,
        get_with_cache st key now ttl (some data)
          = (some data,
              { cache := dictInsert st.cache key data
                expiry := dictInsert st.expiry key (now + ttl) })) := by
  constructor
  · intro h net
    unfold get_with_cache
    rw [if_pos h]
  · intro h data
    unfold get_with_cache
    rw [if_neg h]

/-- Witness for C2: a hit on a cached entry (key `"k"`, payload 42, expiry
10 > now 5) returns the prior payload for both possible network outcomes and
leaves the state unchanged; an expired/missing entry stores the fetched
payload with expiry `0 + 60`. -/
theorem c2_cache_witness :
    get_with_cache (CacheState.mk [("k", 42)] [("k", 10)]) "k" 5 60 (none : Option ℕ)
        = (some 42, CacheState.mk [("k", 42)] [("k", 10)]) ∧
    get_with_cache (CacheState.mk [("k", 42)] [("k", 10)]) "k" 5 60 (some 7)
        = (some 42, CacheState.mk [("k", 42)] [("k", 10)]) ∧
    get_with_cache (CacheState.mk ([] : List (String × ℕ)) []) "k" 0 60 (some 7)
        = (some 7, CacheState.mk [("k", 7)] [("k", 60)]) := by
  have hhit := (c2_cache_hit_and_ttl_expiry
    (CacheState.mk [("k", (42 : ℕ))] [("k", 10)]) "k" 5 60).1 (by decide)
  have hmiss := (c2_cache_hit_and_ttl_expiry
    (CacheState.mk ([] : List (String × ℕ)) []) "k" 0 60).2 (by decide) 7
  refine ⟨(hhit none).trans (by decide), (hhit (some 7)).trans (by decide),
    hmiss.trans ?_⟩
  simp [dictInsert]

/-- C3: a fetch whose network request fails stores nothing (the cache and
expiry maps are returned unchanged) and returns the distinguished failure
value `none` instead of raising. -/
theorem c3_failed_fetch_not_cached {α : Type _} (st : CacheState α) (key : String)
    (now ttl : ℚ)
    (hmiss : ¬ ((dictLookup st.cache key).isSome ∧
      now < (dictLookup st.expiry key).getD 0)) :
    get_with_cache st key now ttl none = (none, st) := by
  unfold get_with_cache
  rw [if_neg hmiss]

/-- Witness for C3: with an empty cache, a failed fetch returns `none` and
the empty state unchanged. -/
theorem c3_failed_fetch_witness :
    (¬ (((dictLookup (CacheState.mk ([] : List (String × ℕ)) []).cache "k").isSome) ∧
        (0 : ℚ) < ((dictLookup (CacheState.mk ([] : List (String × ℕ)) []).expiry
          "k").getD 0))) ∧
    get_with_cache (CacheState.mk ([] : List (String × ℕ)) []) "k" 0 60 none
      = (none, CacheState.mk [] []) :=
  ⟨by decide, c3_failed_fetch_not_cached _ "k" 0 60 (by decide)⟩

/-- C6: the dashboard offers the all-time window `"max"`, but
`get_coin_history` evaluates `int(days)` while building the request params,
so the `"max"` window raises an uncaught `ValueError` instead of requesting
daily granularity or returning an absent series. -/
theorem c6_history_max_window_raises :
    "max" ∈ dashboard_timeframe_days ∧
    ∀ net : String → Option HistPayload,
      get_coin_history "max" net
        = PyResult.raised "ValueError: invalid literal for int with base 10: max" :=
  ⟨by decide, fun _ => rfl⟩

/-- C7: valuing an empty holdings mapping yields total 0, an empty list and
no error marker, regardless of cache state or network; a failed snapshot
fetch with non-empty holdings yields total 0 and an empty list but carries
the `"Failed to fetch coin data"` error marker, which is distinct from the
legitimate-empty result. -/
theorem c7_empty_vs_failed_fetch :
    (∀ (st : CacheState (List MarketCoin)) (now : ℚ) (net : Option (List MarketCoin)),
        (calculate_portfolio_value [] st now net).1
          = { total_value := 0, holdings := [], error := none }) ∧
    (∀ (holdings : List (String × ℚ)) (now : ℚ), holdings ≠ [] →
        (calculate_portfolio_value holdings (CacheState.mk [] []) now none).1
          = { total_value := 0, holdings := [],
              error := some "Failed to fetch coin data" }) ∧
    (some "Failed to fetch coin data" ≠ (none : Option String)) := by
  refine ⟨fun st now net => rfl, fun holdings now hne => ?_, by simp⟩
  simp [calculate_portfolio_value, hne, portfolio_result_of_fetch, get_top_coins,
    get_with_cache, dictLookup]

/-- Witness for C7: a concrete one-coin holdings mapping with a failed fetch
yields the error-marked empty result. -/
theorem c7_empty_vs_failed_fetch_witness :
    ([("bitcoin", (2 : ℚ))] ≠ ([] : List (String × ℚ))) ∧
    (calculate_portfolio_value [("bitcoin", 2)] (CacheState.mk [] []) 0 none).1
      = { total_value := 0, holdings := [], error := some "Failed to fetch coin data" } :=
  ⟨by decide, c7_empty_vs_failed_fetch.2.1 [("bitcoin", 2)] 0 (by decide)⟩

/-- C1: for every holdings mapping and fetched snapshot, the valuation total
equals the sum over holdings of amount × the coin's latest known current
price (the last occurrence of the id in the snapshot wins), any held id
absent from the snapshot appears nowhere in the returned holdings list, and
the list length counts exactly the holdings present in the snapshot — no
error is raised for absent ids. -/
theorem c1_portfolio_valuation_total (holdings : List (String × ℚ))
    (snap : List MarketCoin) :
    (portfolio_from_coins holdings snap).total_value
      = (holdings.filterMap
          (fun p => (coin_prices snap p.1).map (fun d => p.2 * d.current_price))).sum ∧
    (∀ z : String, coin_prices snap z = none →
      ∀ it ∈ (portfolio_from_coins holdings snap).holdings, it.id ≠ z) ∧
    (portfolio_from_coins holdings snap).holdings.length
      = (holdings.filter (fun p => (coin_prices snap p.1).isSome)).length := by
  refine ⟨?_, ?_, ?_⟩
  · show portfolio_total (portfolio_items holdings snap) = _
    rw [portfolio_total, foldl_add_map_sum, portfolio_items_map_value, zero_add]
  · intro z hz it hit heq
    have hit' : it ∈ List.insertionSort (keyDesc PortfolioItem.value)
        (portfolio_items holdings snap) := hit
    have hmem : it ∈ portfolio_items holdings snap :=
      (List.perm_insertionSort (keyDesc PortfolioItem.value)
        (portfolio_items holdings snap)).mem_iff.mp hit'
    obtain ⟨p, hp, hsome⟩ := List.mem_filterMap.mp hmem
    obtain ⟨d, hd, hdit⟩ := Option.map_eq_some'.mp hsome
    have hid : it.id = p.1 := by rw [← hdit]; rfl
    rw [heq] at hid
    rw [← hid] at hd
    rw [hz] at hd
    cases hd
  · show (List.insertionSort (keyDesc PortfolioItem.value)
        (portfolio_items holdings snap)).length = _
    rw [List.length_insertionSort, portfolio_items_length]

/-- Witness for C1: the specification's worked example — holdings
{a: 1, z: 1} with a snapshot containing only coin `a` at price 10 — values
to total 10 with a single-entry holdings list. -/
theorem c1_portfolio_valuation_witness :
    (portfolio_from_coins [("a", 1), ("z", 1)] [witSnapCoin]).total_value = 10 ∧
    (portfolio_from_coins [("a", 1), ("z", 1)] [witSnapCoin]).holdings.length = 1 := by
  have h := c1_portfolio_valuation_total [("a", 1), ("z", 1)] [witSnapCoin]
  constructor
  · rw [h.1]
    simp [coin_prices, coinPriceEntry, witSnapCoin, List.filterMap_cons]
  · rw [h.2.2]
    decide

/-- C8: the valued-holdings list is sorted by value in descending order, the
subsequence of entries sharing any given value is exactly the corresponding
subsequence of the pre-sort item list (stable tie-break), and the pre-sort
item list follows the original iteration order of the holdings mapping. -/
theorem c8_holdings_sorted_desc_stable (holdings : List (String × ℚ))
    (snap : List MarketCoin) :
    ((portfolio_from_coins holdings snap).holdings).Pairwise
        (fun a b => b.value ≤ a.value) ∧
    (∀ v : ℚ,
      ((portfolio_from_coins holdings snap).holdings).filter
          (fun it => decide (it.value = v))
        = (portfolio_items holdings snap).filter (fun it => decide (it.value = v))) ∧
    (portfolio_items holdings snap).map PortfolioItem.id
      = (holdings.filter (fun p => (coin_prices snap p.1).isSome)).map Prod.fst := by
  refine ⟨?_, ?_, portfolio_items_map_id holdings snap⟩
  · exact List.sorted_insertionSort (keyDesc PortfolioItem.value)
      (portfolio_items holdings snap)
  · intro v
    exact filter_insertionSort_keyDesc PortfolioItem.value v
      (portfolio_items holdings snap)

/-- Witness for C8: on a concrete holding, the pre-sort item list follows
the holdings order, and the sorted result list is pairwise descending. -/
theorem c8_holdings_sorted_witness :
    (portfolio_items [("a", 1), ("z", 1)] [witSnapCoin]).map PortfolioItem.id = ["a"] ∧
    ((portfolio_from_coins [("a", 1), ("z", 1)] [witSnapCoin]).holdings).Pairwise
        (fun a b => b.value ≤ a.value) := by
  have h := c8_holdings_sorted_desc_stable [("a", 1), ("z", 1)] [witSnapCoin]
  exact ⟨h.2.2.trans (by decide), h.1⟩

/-- C9: re-running the portfolio aggregator with the same holdings, the same
clock reading and the same would-be network outcome, after the state
mutation performed by a first run, returns the same result as the first run:
the only state the aggregator mutates is the cache, and the cached payload
reproduces the first run's data. -/
theorem c9_aggregator_idempotent (holdings : List (String × ℚ))
    (st : CacheState (List MarketCoin)) (now : ℚ) (net : Option (List MarketCoin)) :
    (calculate_portfolio_value holdings
        (calculate_portfolio_value holdings st now net).2 now net).1
      = (calculate_portfolio_value holdings st now net).1 := by
  by_cases hh : holdings = []
  · subst hh; rfl
  · have h60 : (0 : ℚ) < CACHE_DURATION := by norm_num [CACHE_DURATION]
    simp only [calculate_portfolio_value, if_neg hh, get_top_coins]
    rw [get_with_cache_rerun st (top_coins_cache_key 250) now CACHE_DURATION net h60]

/-- Witness for C9: a concrete second run over the state left by a first run
(empty initial cache, successful fetch of the one-coin snapshot) reproduces
the first run's result. -/
theorem c9_aggregator_idempotent_witness :
    (calculate_portfolio_value [("a", 1)]
        (calculate_portfolio_value [("a", 1)] (CacheState.mk [] []) 0
          (some [witSnapCoin])).2 0 (some [witSnapCoin])).1
      = (calculate_portfolio_value [("a", 1)] (CacheState.mk [] []) 0
          (some [witSnapCoin])).1 :=
  c9_aggregator_idempotent [("a", 1)] (CacheState.mk [] []) 0 (some [witSnapCoin])

/-- C4: with more than 8 entries, the dominance bucketing emits the top 8 of
the descending stable sort of the (upper-cased) input entries followed by a
single synthetic `"Others"` bucket holding the sum of all remaining
percentages, for 9 buckets in total; ties are broken by the iteration order
of the input mapping (the sort leaves the subsequence of entries with any
fixed percentage untouched). -/
theorem c4_dominance_bucketing (mcp : List (String × ℚ)) (h : 8 < mcp.length) :
    create_market_dominance_chart mcp
      = (dominance_sorted_data mcp).take 8
        ++ [("Others", (((dominance_sorted_data mcp).drop 8).map Prod.snd).sum)] ∧
    (create_market_dominance_chart mcp).length = 9 ∧
    (dominance_sorted_data mcp).Pairwise (fun a b => b.2 ≤ a.2) ∧
    (∀ v : ℚ,
      (dominance_sorted_data mcp).filter (fun p => decide (p.2 = v))
        = (mcp.map (fun p => (pyUpper p.1, p.2))).filter (fun p => decide (p.2 = v))) ∧
    (((dominance_sorted_data mcp).drop 8).map Prod.snd).sum
      = (mcp.map Prod.snd).sum - (((dominance_sorted_data mcp).take 8).map Prod.snd).sum := by
  have hlen : (dominance_sorted_data mcp).length = mcp.length := by
    rw [dominance_sorted_data, List.length_insertionSort, List.length_map]
  have hcond : 8 < (dominance_sorted_data mcp).length := by rw [hlen]; exact h
  have hchart : create_market_dominance_chart mcp
      = (dominance_sorted_data mcp).take 8
        ++ [("Others", (((dominance_sorted_data mcp).drop 8).map Prod.snd).sum)] := by
    show (if 8 < (dominance_sorted_data mcp).length
        then (dominance_sorted_data mcp).take 8
          ++ [("Others", (((dominance_sorted_data mcp).drop 8).map Prod.snd).sum)]
        else dominance_sorted_data mcp) = _
    rw [if_pos hcond]
  refine ⟨hchart, ?_, ?_, ?_, ?_⟩
  · rw [hchart, List.length_append, List.length_take,
      min_eq_left (le_of_lt hcond)]
    rfl
  · exact List.sorted_insertionSort (keyDesc (Prod.snd : String × ℚ → ℚ))
      (mcp.map (fun p => (pyUpper p.1, p.2)))
  · intro v
    exact filter_insertionSort_keyDesc Prod.snd v _
  · have hperm : (dominance_sorted_data mcp).Perm
        (mcp.map (fun p => (pyUpper p.1, p.2))) :=
      List.perm_insertionSort _ _
    have hmapsum : ((dominance_sorted_data mcp).map Prod.snd).sum
        = (mcp.map Prod.snd).sum := by
      rw [(hperm.map Prod.snd).sum_eq, List.map_map]
      rfl
    have hsplit : (((dominance_sorted_data mcp).take 8).map Prod.snd).sum
        + (((dominance_sorted_data mcp).drop 8).map Prod.snd).sum
        = (mcp.map Prod.snd).sum := by
      rw [← hmapsum, ← List.sum_append, ← List.map_append, List.take_append_drop]
    linarith

/-- Witness for C4: the specification's ten-symbol example has more than 8
entries and buckets to exactly 9 entries. -/
theorem c4_dominance_bucketing_witness :
    8 < dominanceExample.length ∧
    (create_market_dominance_chart dominanceExample).length = 9 ∧
    (create_market_dominance_chart dominanceExample).map Prod.fst
      = ["S1", "S2", "S3", "S4", "S5", "S6", "S7", "S8", "Others"] :=
  ⟨by decide, (c4_dominance_bucketing dominanceExample (by decide)).2.1, by decide⟩

/-- C10: with 8 or fewer entries, the dominance bucketing is exactly the
descending stable sort of the upper-cased input entries — a permutation of
them, of the same length, with no `"Others"` bucket appended. -/
theorem c10_dominance_small_mapping (mcp : List (String × ℚ)) (h : mcp.length ≤ 8) :
    create_market_dominance_chart mcp = dominance_sorted_data mcp ∧
    (create_market_dominance_chart mcp).Perm (mcp.map (fun p => (pyUpper p.1, p.2))) ∧
    (create_market_dominance_chart mcp).length = mcp.length ∧
    (create_market_dominance_chart mcp).Pairwise (fun a b => b.2 ≤ a.2) ∧
    (∀ v : ℚ,
      (create_market_dominance_chart mcp).filter (fun p => decide (p.2 = v))
        = (mcp.map (fun p => (pyUpper p.1, p.2))).filter (fun p => decide (p.2 = v))) := by
  have hlen : (dominance_sorted_data mcp).length = mcp.length := by
    rw [dominance_sorted_data, List.length_insertionSort, List.length_map]
  have hcond : ¬ 8 < (dominance_sorted_data mcp).length := by rw [hlen]; omega
  have hchart : create_market_dominance_chart mcp = dominance_sorted_data mcp := by
    show (if 8 < (dominance_sorted_data mcp).length
        then (dominance_sorted_data mcp).take 8
          ++ [("Others", (((dominance_sorted_data mcp).drop 8).map Prod.snd).sum)]
        else dominance_sorted_data mcp) = _
    rw [if_neg hcond]
  refine ⟨hchart, ?_, ?_, ?_, ?_⟩
  · rw [hchart]
    exact List.perm_insertionSort _ _
  · rw [hchart]
    exact hlen
  · rw [hchart]
    exact List.sorted_insertionSort (keyDesc (Prod.snd : String × ℚ → ℚ))
      (mcp.map (fun p => (pyUpper p.1, p.2)))
  · intro v
    rw [hchart]
    exact filter_insertionSort_keyDesc Prod.snd v _

/-- Witness for C10: a three-symbol mapping stays at three buckets. -/
theorem c10_dominance_small_mapping_witness :
    dominanceSmallExample.length ≤ 8 ∧
    (create_market_dominance_chart dominanceSmallExample).length
      = dominanceSmallExample.length ∧
    (create_market_dominance_chart dominanceSmallExample).map Prod.fst
      = ["BTC", "XRP", "ETH"] :=
  ⟨by decide, (c10_dominance_small_mapping dominanceSmallExample (by decide)).2.2.1,
    by decide⟩

/-- C5: the gainers are coins of the snapshot with positive 24h change,
pairwise descending, exactly `min 5` of the positive coins as a
sub-multiset, and every omitted positive coin changes no more than any
listed one; the losers mirror this for negative change, ascending; a coin
with exactly zero change appears in neither list. -/
theorem c5_movers_ranking (coins : List MarketCoin) :
    (∀ c ∈ top_gainers coins, c ∈ coins ∧ 0 < pc24 c) ∧
    (top_gainers coins).Pairwise (fun a b => pc24 b ≤ pc24 a) ∧
    (top_gainers coins).length = min 5 (coins.filter (fun c => decide (0 < pc24 c))).length ∧
    List.Subperm (top_gainers coins) (coins.filter (fun c => decide (0 < pc24 c))) ∧
    (∀ c ∈ coins, 0 < pc24 c → c ∉ top_gainers coins →
      ∀ g ∈ top_gainers coins, pc24 c ≤ pc24 g) ∧
    (∀ c ∈ top_losers coins, c ∈ coins ∧ pc24 c < 0) ∧
    (top_losers coins).Pairwise (fun a b => pc24 a ≤ pc24 b) ∧
    (top_losers coins).length = min 5 (coins.filter (fun c => decide (pc24 c < 0))).length ∧
    List.Subperm (top_losers coins) (coins.filter (fun c => decide (pc24 c < 0))) ∧
    (∀ c ∈ coins, pc24 c < 0 → c ∉ top_losers coins →
      ∀ l ∈ top_losers coins, pc24 l ≤ pc24 c) ∧
    (∀ c, pc24 c = 0 → c ∉ top_gainers coins ∧ c ∉ top_losers coins) := by
  have hgsorted := List.sorted_insertionSort (keyDesc pc24)
    (coins.filter (fun c => decide (0 < pc24 c)))
  have hgperm := List.perm_insertionSort (keyDesc pc24)
    (coins.filter (fun c => decide (0 < pc24 c)))
  have hlsorted := List.sorted_insertionSort (keyAsc pc24)
    (coins.filter (fun c => decide (pc24 c < 0)))
  have hlperm := List.perm_insertionSort (keyAsc pc24)
    (coins.filter (fun c => decide (pc24 c < 0)))
  have hgmem : ∀ c ∈ top_gainers coins, c ∈ coins ∧ 0 < pc24 c := by
    intro c hc
    have hc1 : c ∈ List.insertionSort (keyDesc pc24)
        (coins.filter (fun c => decide (0 < pc24 c))) := List.mem_of_mem_take hc
    have hc3 := List.mem_filter.mp (hgperm.mem_iff.mp hc1)
    exact ⟨hc3.1, of_decide_eq_true hc3.2⟩
  have hlmem : ∀ c ∈ top_losers coins, c ∈ coins ∧ pc24 c < 0 := by
    intro c hc
    have hc1 : c ∈ List.insertionSort (keyAsc pc24)
        (coins.filter (fun c => decide (pc24 c < 0))) := List.mem_of_mem_take hc
    have hc3 := List.mem_filter.mp (hlperm.mem_iff.mp hc1)
    exact ⟨hc3.1, of_decide_eq_true hc3.2⟩
  refine ⟨hgmem, ?_, ?_, ?_, ?_, hlmem, ?_, ?_, ?_, ?_, ?_⟩
  · exact List.Pairwise.sublist (List.take_sublist 5 _) hgsorted
  · rw [top_gainers, List.length_take, List.length_insertionSort]
  · exact ((List.take_sublist 5 _).subperm).trans hgperm.subperm
  · intro c hcmem hcpos hcnot g hg
    have hcs : c ∈ List.insertionSort (keyDesc pc24)
        (coins.filter (fun c => decide (0 < pc24 c))) :=
      hgperm.mem_iff.mpr (List.mem_filter.mpr ⟨hcmem, decide_eq_true hcpos⟩)
    rw [← List.take_append_drop 5 (List.insertionSort (keyDesc pc24)
      (coins.filter (fun c => decide (0 < pc24 c))))] at hcs
    rcases List.mem_append.mp hcs with hin | hin
    · exact absurd hin hcnot
    · exact pairwise_take_drop hgsorted 5 g hg c hin
  · exact List.Pairwise.sublist (List.take_sublist 5 _) hlsorted
  · rw [top_losers, List.length_take, List.length_insertionSort]
  · exact ((List.take_sublist 5 _).subperm).trans hlperm.subperm
  · intro c hcmem hcneg hcnot l hl
    have hcs : c ∈ List.insertionSort (keyAsc pc24)
        (coins.filter (fun c => decide (pc24 c < 0))) :=
      hlperm.mem_iff.mpr (List.mem_filter.mpr ⟨hcmem, decide_eq_true hcneg⟩)
    rw [← List.take_append_drop 5 (List.insertionSort (keyAsc pc24)
      (coins.filter (fun c => decide (pc24 c < 0))))] at hcs
    rcases List.mem_append.mp hcs with hin | hin
    · exact absurd hin hcnot
    · exact pairwise_take_drop hlsorted 5 l hl c hin
  · intro c hc0
    constructor
    · intro hmem
      exact ne_of_gt (hgmem c hmem).2 hc0
    · intro hmem
      exact ne_of_lt (hlmem c hmem).2 hc0

/-- Witness for C5: on the specification's example snapshot with 24h changes
[+5, -3, 0, +10, -1], both lists have two entries and the zero-change coin
is in neither. -/
theorem c5_movers_ranking_witness :
    (top_gainers moversExample).map MarketCoin.id = ["d", "a"] ∧
    (top_losers moversExample).map MarketCoin.id = ["b", "e"] ∧
    (top_gainers moversExample).length = 2 ∧
    (top_losers moversExample).length = 2 ∧
    pc24 (moverCoin "c" 0) = 0 ∧
    moverCoin "c" 0 ∉ top_gainers moversExample ∧
    moverCoin "c" 0 ∉ top_losers moversExample := by
  have h := c5_movers_ranking moversExample
  have hz := h.2.2.2.2.2.2.2.2.2.2 (moverCoin "c" 0) (by decide)
  exact ⟨by decide, by decide, (h.2.2.1).trans (by decide),
    (h.2.2.2.2.2.2.2.1).trans (by decide), by decide, hz.1, hz.2⟩
